import Mathlib

/-!
Verification development for the ShowUI-Aloha action-translation and
execution layer.  The definitions below are shallow embeddings of the
Python sources (`ui_aloha/execute/executor/aloha_executor.py`, the three
actor agents, `gui_capture.py`, `tools/computer.py`, `app_client.py`):
Python dictionaries become association lists over a small dynamic value
type, numbers become `Int`/`ℚ` with explicit truncation where Python's
`int()` truncates, and exception-raising code returns `Except`.
-/

/-- A Python runtime value, as used by the action dictionaries flowing
between the normalizers, the decomposer and the executor.  `float` is
modelled as an exact rational: every float arising in the claims below
(`ms/1000`, coordinate scaling at powers of two) is computed exactly by
the Python interpreter as well. -/
inductive PyVal where
  | none
  | int (n : Int)
  | float (q : ℚ)
  | str (s : String)
  | list (xs : List PyVal)
  | tuple (xs : List PyVal)
  | dict (entries : List (String × PyVal))
deriving Repr

/-- Association-list model of a Python `dict` with string keys
(insertion order preserved, first binding wins on lookup). -/
abbrev PyDict := List (String × PyVal)

/-- `d[k]` / `d.get(k)`: first binding for `k`. -/
def pyGet (d : PyDict) (k : String) : Option PyVal :=
  (d.find? (fun kv => kv.1 == k)).map (·.2)

/-- `d.get(k, default)`. -/
def pyGetD (d : PyDict) (k : String) (v : PyVal) : PyVal :=
  (pyGet d k).getD v

/-- `k in d`. -/
def pyContains (d : PyDict) (k : String) : Bool :=
  (pyGet d k).isSome

/-- `d[k] = v`: replace the first binding (or append). -/
def pySet (d : PyDict) (k : String) (v : PyVal) : PyDict :=
  if pyContains d k then
    d.map (fun kv => if kv.1 == k then (k, v) else kv)
  else
    d ++ [(k, v)]

/-- `v is None`. -/
def isPyNone : PyVal → Bool
  | .none => true
  | _ => false

/-- Truncation of a rational toward zero, Python's `int(float)`. -/
def pyTruncQ (q : ℚ) : Int :=
  q.num.tdiv q.den

/-- Python truthiness of a value (`bool(v)`). -/
def pyTruthy : PyVal → Bool
  | .none => false
  | .int n => n != 0
  | .float q => q != 0
  | .str s => s != ""
  | .list xs => !xs.isEmpty
  | .tuple xs => !xs.isEmpty
  | .dict es => !es.isEmpty

/-- Parse an optional-sign decimal integer literal, Python `int(str)`
(surrounding whitespace stripped by the caller; no underscores). -/
def parseIntLit (s : String) : Option Int :=
  let core (ds : List Char) : Option Int :=
    if ds ≠ [] ∧ ds.all Char.isDigit then
      some (ds.foldl (fun a c => a * 10 + (c.toNat - 48)) (0 : Int))
    else
      Option.none
  match s.data with
  | '-' :: rest => (core rest).map (fun n => -n)
  | '+' :: rest => core rest
  | ds => core ds

/-- Python `int(v)`: identity on ints, truncation on floats, decimal
parse on strings, `TypeError`/`ValueError` (as `Except.error`) otherwise. -/
def pyInt : PyVal → Except String Int
  | .int n => .ok n
  | .float q => .ok (pyTruncQ q)
  | .str s =>
      match parseIntLit s.trim with
      | some n => .ok n
      | Option.none => .error ("invalid literal for int: " ++ s)
  | v => .error ("int() argument must be a number or string, not " ++ reprStr v)

/-- Parse a decimal literal with an optional fractional part,
Python `float(str)` restricted to plain decimal notation. -/
def parseFloatLit (s : String) : Option ℚ :=
  let digitsVal (ds : List Char) : ℚ :=
    ds.foldl (fun a c => a * 10 + ((c.toNat - 48 : ℕ) : ℚ)) 0
  let core (ds : List Char) : Option ℚ :=
    match ds.splitOn '.' with
    | [ip] =>
        if ip ≠ [] ∧ ip.all Char.isDigit then some (digitsVal ip) else Option.none
    | [ip, fp] =>
        if (ip ≠ [] ∨ fp ≠ []) ∧ ip.all Char.isDigit ∧ fp.all Char.isDigit then
          some (digitsVal ip + digitsVal fp / ((10 : ℚ) ^ fp.length))
        else
          Option.none
    | _ => Option.none
  match s.data with
  | '-' :: rest => (core rest).map (fun q => -q)
  | '+' :: rest => core rest
  | ds => core ds

/-- Python `float(v)`. -/
def pyFloat : PyVal → Except String ℚ
  | .int n => .ok (n : ℚ)
  | .float q => .ok q
  | .str s =>
      match parseFloatLit s.trim with
      | some q => .ok q
      | Option.none => .error ("could not convert string to float: " ++ s)
  | v => .error ("float() argument must be a number or string, not " ++ reprStr v)

/-- Decimal fractional digits of a rational in `[0,1)`, fuel-bounded;
empty once the remainder hits zero. -/
def fracDigits : ℕ → ℚ → String
  | 0, _ => ""
  | _, 0 => ""
  | fuel + 1, q =>
      let d : Int := ⌊q * 10⌋
      (toString d) ++ fracDigits fuel (q * 10 - (d : ℚ))

/-- Decimal rendering of a nonnegative rational: integer part, a dot,
and the decimal expansion of the fractional part, at least one digit. -/
def pyFloatStrNN (q : ℚ) : String :=
  let ip : Int := ⌊q⌋
  let ds := fracDigits 30 (q - (ip : ℚ))
  toString ip ++ "." ++ (if ds = "" then "0" else ds)

/-- Python `str(float)` for the exactly-representable rationals that the
embedded code produces (`ms/1000`, halves): the exact decimal expansion
with at least one fractional digit (`str(2.0) = "2.0"`). -/
def pyFloatStr (q : ℚ) : String :=
  if q < 0 then "-" ++ pyFloatStrNN (-q) else pyFloatStrNN q

/-- Python `str(v)` for the value shapes reachable in the embedded code. -/
def pyStr : PyVal → String
  | .none => "None"
  | .int n => toString n
  | .float q => pyFloatStr q
  | .str s => s
  | .list _ => "[...]"
  | .tuple _ => "(...)"
  | .dict _ => "{...}"

/-!
## AlohaExecutor (`ui_aloha/execute/executor/aloha_executor.py`)

The decomposer: a canonical action dictionary is expanded into an ordered
list of primitive device operations.  Each `_parse_*` method becomes a
Lean function returning `Except String (List PrimOp)`; a raised
`ValueError`/`TypeError`/`KeyError` is an `Except.error`.
-/

/-- One primitive-operation dictionary as built by the `_parse_*`
methods: `{"action": ..., "text": ..., "coordinate": ...}`. -/
structure PrimOp where
  action : String
  text : PyVal
  coordinate : PyVal
deriving Repr

/-- `AlohaExecutor.supported_actions`. -/
def supportedActions : List String :=
  ["CLICK", "RIGHT_CLICK", "INPUT", "MOVE", "HOVER", "ENTER", "ESC",
   "ESCAPE", "PRESS", "KEY", "HOTKEY", "DRAG", "SCROLL", "DOUBLE_CLICK",
   "TRIPLE_CLICK", "WAIT", "PAUSE", "CONTINUE"]

/-- Sequence unpacking `x, y = v` of exactly two targets: succeeds on a
2-element list/tuple (and on a 2-character string), else `ValueError`. -/
def unpack2 (v : PyVal) : Except String (PyVal × PyVal) :=
  match v with
  | .list [a, b] => .ok (a, b)
  | .tuple [a, b] => .ok (a, b)
  | .str s =>
      match s.data with
      | [a, b] => .ok (.str (String.mk [a]), .str (String.mk [b]))
      | _ => .error "unpacking error"
  | _ => .error "unpacking error"

/-- `AlohaExecutor._ensure_position_tuple`: `x, y = item["position"]`,
then `int(x), int(y)`. -/
def ensurePositionTuple (item : PyDict) : Except String (Int × Int) := do
  let pos ← match pyGet item "position" with
    | some v => Except.ok v
    | Option.none => Except.error "KeyError: position"
  let (xv, yv) ← unpack2 pos
  let x ← pyInt xv
  let y ← pyInt yv
  pure (x, y)

/-- `AlohaExecutor._parse_click`. -/
def parseClick (item : PyDict) : Except String (List PrimOp) := do
  let (x, y) ← ensurePositionTuple item
  pure [⟨"mouse_move", .none, .tuple [.int x, .int y]⟩,
        ⟨"left_click", .none, .tuple [.int x, .int y]⟩]

/-- `AlohaExecutor._parse_right_click`. -/
def parseRightClick (item : PyDict) : Except String (List PrimOp) := do
  let (x, y) ← ensurePositionTuple item
  pure [⟨"mouse_move", .none, .tuple [.int x, .int y]⟩,
        ⟨"right_click", .none, .tuple [.int x, .int y]⟩]

/-- `AlohaExecutor._parse_input`: text from `"text"` if present, else
`"value"`, else `ValueError`. -/
def parseInput (item : PyDict) : Except String (List PrimOp) :=
  if pyContains item "text" then
    .ok [⟨"type", pyGetD item "text" .none, .none⟩]
  else if pyContains item "value" then
    .ok [⟨"type", pyGetD item "value" .none, .none⟩]
  else
    .error "Input action does not contain text or value"

/-- `AlohaExecutor._parse_move` (also serves HOVER). -/
def parseMove (item : PyDict) : Except String (List PrimOp) := do
  let (x, y) ← ensurePositionTuple item
  pure [⟨"mouse_move", .none, .tuple [.int x, .int y]⟩]

/-- `AlohaExecutor._parse_enter`. -/
def parseEnter (_item : PyDict) : Except String (List PrimOp) :=
  .ok [⟨"key", .str "Enter", .none⟩]

/-- `AlohaExecutor._parse_escape`. -/
def parseEscape (_item : PyDict) : Except String (List PrimOp) :=
  .ok [⟨"key", .str "Escape", .none⟩]

/-- `AlohaExecutor._parse_press`. -/
def parsePress (item : PyDict) : Except String (List PrimOp) := do
  let (x, y) ← ensurePositionTuple item
  pure [⟨"mouse_move", .none, .tuple [.int x, .int y]⟩,
        ⟨"left_press", .none, .none⟩]

/-- `AlohaExecutor._parse_key_or_hotkey`: a list value yields one `key`
operation per entry, any other value a single `key` operation. -/
def parseKeyOrHotkey (item : PyDict) : Except String (List PrimOp) :=
  match pyGetD item "value" .none with
  | .list keys => .ok (keys.map (fun k => ⟨"key", k, .none⟩))
  | v => .ok [⟨"key", v, .none⟩]

/-- `to_xy` inside `AlohaExecutor._parse_drag`. -/
def dragToXY (v : PyVal) (name : String) : Except String (Int × Int) :=
  match v with
  | .list (a :: b :: _) => do
      let x ← pyInt a
      let y ← pyInt b
      pure (x, y)
  | .tuple (a :: b :: _) => do
      let x ← pyInt a
      let y ← pyInt b
      pure (x, y)
  | _ => .error ("Invalid coordinate for " ++ name)

/-- First key of `ks` present in `item` with a non-`None` value, paired
with that value (the `for k in (...)` / `break` scan in `_parse_drag`). -/
def firstPresent (item : PyDict) (ks : List String) : Option (String × PyVal) :=
  match ks with
  | [] => Option.none
  | k :: rest =>
      match pyGet item k with
      | some v => if isPyNone v then firstPresent item rest else some (k, v)
      | Option.none => firstPresent item rest

/-- `AlohaExecutor._parse_drag`: start from `from`/`start`/`value`, end
from `to`/`end`/`position`, first present non-`None` key wins; missing
either endpoint is an error. -/
def parseDrag (item : PyDict) : Except String (List PrimOp) := do
  let start ← match firstPresent item ["from", "start", "value"] with
    | some (k, v) => (dragToXY v k).map some
    | Option.none => pure Option.none
  let stop ← match firstPresent item ["to", "end", "position"] with
    | some (k, v) => (dragToXY v k).map some
    | Option.none => pure Option.none
  match start, stop with
  | some (x1, y1), some (x2, y2) =>
      pure [⟨"mouse_move", .none, .tuple [.int x1, .int y1]⟩,
            ⟨"left_click_drag", .none, .tuple [.int x2, .int y2]⟩]
  | _, _ => throw "DRAG action requires start and end coordinates"

/-- `AlohaExecutor._parse_double_click`: the second operation carries no
coordinate. -/
def parseDoubleClick (item : PyDict) : Except String (List PrimOp) := do
  let (x, y) ← ensurePositionTuple item
  pure [⟨"mouse_move", .none, .tuple [.int x, .int y]⟩,
        ⟨"double_click", .none, .none⟩]

/-- `AlohaExecutor._parse_triple_click`. -/
def parseTripleClick (item : PyDict) : Except String (List PrimOp) := do
  let (x, y) ← ensurePositionTuple item
  pure [⟨"mouse_move", .none, .tuple [.int x, .int y]⟩,
        ⟨"triple_click", .none, .none⟩]

/-- Python `v / 1000` (true division, float result) on the value found
in the `"ms"` field; non-numeric values raise `TypeError`. -/
def pyDivBy1000 : PyVal → Except String ℚ
  | .int n => .ok ((n : ℚ) / 1000)
  | .float q => .ok (q / 1000)
  | v => .error ("unsupported operand type for /: " ++ reprStr v)

/-- `AlohaExecutor._parse_wait`:
`seconds = (item.get("ms", 5000) / 1000) or item.get("seconds", 5)`.
The left operand is a float; when it is `0.0` (falsy) the `or` falls
through to the `"seconds"` field (default `5`). -/
def parseWait (item : PyDict) : Except String (List PrimOp) := do
  let q ← pyDivBy1000 (pyGetD item "ms" (.int 5000))
  let seconds : PyVal := if pyTruthy (.float q) then .float q else pyGetD item "seconds" (.int 5)
  pure [⟨"wait", .str (pyStr seconds), .none⟩]

/-- `AlohaExecutor._parse_pause`. -/
def parsePause (_item : PyDict) : Except String (List PrimOp) :=
  .ok [⟨"__no_op__", .str "PAUSE", .none⟩]

/-- `AlohaExecutor._parse_continue`. -/
def parseContinue (_item : PyDict) : Except String (List PrimOp) :=
  .ok [⟨"__no_op__", .str "CONTINUE", .none⟩]

/-- `AlohaExecutor._parse_scroll`: the guard accepts any list/tuple of
length ≥ 2 but the unpacking `_, scroll_y = val` only succeeds on
exactly two elements; a scalar value is the vertical amount itself.  The
emitted amount is the negation (`positive input = scroll down`, device
positive = up); a non-`None` `position` prefixes a `mouse_move` and is
also attached to the scroll operation. -/
def parseScroll (item : PyDict) : Except String (List PrimOp) := do
  let val := pyGetD item "value" .none
  let scrollY : PyVal ←
    match val with
    | .list (_a :: b :: rest) =>
        match rest with
        | [] => pure (b : PyVal)
        | _ => (throw "too many values to unpack" : Except String PyVal)
    | .tuple (_a :: b :: rest) =>
        match rest with
        | [] => pure (b : PyVal)
        | _ => (throw "too many values to unpack" : Except String PyVal)
    | v => pure v
  if isPyNone scrollY then
    throw "Scroll action missing value"
  else
    let n ← match (do let q ← pyFloat scrollY; pyInt (.float q) : Except String Int) with
      | .ok n => pure n
      | .error _ => (throw "Scroll value must be numeric" : Except String Int)
    let posPresent := pyContains item "position" && !(isPyNone (pyGetD item "position" .none))
    if posPresent then do
      let (xv, yv) ← unpack2 (pyGetD item "position" .none)
      let x ← pyInt xv
      let y ← pyInt yv
      pure [⟨"mouse_move", .none, .tuple [.int x, .int y]⟩,
            ⟨"scroll", .str (toString (-n)), .tuple [.int x, .int y]⟩]
    else
      pure [⟨"scroll", .str (toString (-n)), .none⟩]

/-- The parser dispatch table `AlohaExecutor._parsers`. -/
def parsersGet (name : String) : Option (PyDict → Except String (List PrimOp)) :=
  if name = "CLICK" then some parseClick
  else if name = "RIGHT_CLICK" then some parseRightClick
  else if name = "INPUT" then some parseInput
  else if name = "MOVE" then some parseMove
  else if name = "HOVER" then some parseMove
  else if name = "ENTER" then some parseEnter
  else if name = "ESC" then some parseEscape
  else if name = "ESCAPE" then some parseEscape
  else if name = "PRESS" then some parsePress
  else if name = "KEY" then some parseKeyOrHotkey
  else if name = "HOTKEY" then some parseKeyOrHotkey
  else if name = "DRAG" then some parseDrag
  else if name = "SCROLL" then some parseScroll
  else if name = "DOUBLE_CLICK" then some parseDoubleClick
  else if name = "TRIPLE_CLICK" then some parseTripleClick
  else if name = "WAIT" then some parseWait
  else if name = "PAUSE" then some parsePause
  else if name = "CONTINUE" then some parseContinue
  else Option.none

/-- The body of `AlohaExecutor._parse_actor_output` over an action
dictionary before its `try`/`except` wrapper: uppercase the tag, reject
tags outside `supported_actions`, dispatch. -/
def parseActorOutputD (item : PyDict) : Except String (List PrimOp) := do
  let actionName := (pyStr (pyGetD item "action" (.str ""))).toUpper
  let item := pySet item "action" (.str actionName)
  if actionName ∈ supportedActions then
    match parsersGet actionName with
    | some parser => parser item
    | Option.none => throw ("No parser for action " ++ actionName)
  else
    throw ("Action " ++ actionName ++ " not supported")

/-- `_parse_actor_output` on an arbitrary content value: a non-dict
value fails at the attribute accesses (the `str` branch via
`ast.literal_eval` is not exercised by any claim). -/
def parseActorOutputVal (v : PyVal) : Except String (List PrimOp) :=
  match v with
  | .dict d => parseActorOutputD d
  | _ => .error "action item is not a dict"

/-- `AlohaExecutor._parse_actor_output`: the `except` handler logs and
returns `None`. -/
def parseActorOutput (v : PyVal) : Option (List PrimOp) :=
  (parseActorOutputVal v).toOption

/-!
## `AlohaExecutor.__call__` and the `ComputerTool` coordinate path

`__call__` extracts the action content, decomposes it, converts each
operation's coordinate by the per-screen offset, and dispatches the
operation to the `ComputerTool` (modelled by an oracle function).  The
executor constructs its tool with `is_scaling=False` and
`coords_are_global=True` (aloha_executor.py line 29).
-/

/-- Outcome of one `ComputerTool` dispatch: a `ToolResult` or a
`ToolError` caught at the dispatch boundary. -/
inductive ToolOut where
  | result (output : Option String) (type_ : String) (actionBaseType : String)
  | toolError (output : Option String)
deriving Repr

/-- One message yielded by the `__call__` generator. -/
structure ExecMsg where
  role : String
  content : Option String
  type_ : String
  actionType : String
deriving Repr

/-- Everything observable about one `__call__` run: the yielded messages
and the exact operation dictionaries sent to the device tool. -/
structure ExecOutcome where
  messages : List ExecMsg
  invoked : List PrimOp
deriving Repr

/-- The per-operation coordinate conversion in `__call__` (lines
96-106): a 2-element list/tuple whose entries both convert with `int()`
is replaced by the offset global tuple; any failure leaves the operation
untouched (`except Exception: pass`). -/
def offsetApply (offX offY : Int) (a : PrimOp) : PrimOp :=
  match a.coordinate with
  | .list [cx, cy] =>
      match pyInt cx, pyInt cy with
      | .ok x, .ok y => { a with coordinate := .tuple [.int (x + offX), .int (y + offY)] }
      | _, _ => a
  | .tuple [cx, cy] =>
      match pyInt cx, pyInt cy with
      | .ok x, .ok y => { a with coordinate := .tuple [.int (x + offX), .int (y + offY)] }
      | _, _ => a
  | _ => a

/-- Body of the per-action loop in `__call__`: no-op acknowledgement for
`__no_op__`, otherwise a tool dispatch whose `ToolResult`/`ToolError` is
wrapped into a message. -/
def execStep (toolRun : PrimOp → ToolOut) (offX offY : Int) (a : PrimOp) :
    List ExecMsg × List PrimOp :=
  let a := offsetApply offX offY a
  if a.action = "__no_op__" then
    let label := if pyTruthy a.text then pyStr a.text else "NOOP"
    ([⟨"assistant", some (label ++ " acknowledged"), "action", "noop"⟩], [])
  else
    match toolRun a with
    | .result out ty abt => ([⟨"assistant", out, ty, abt⟩], [a])
    | .toolError out => ([⟨"assistant", out, "error", ""⟩], [a])

/-- `AlohaExecutor.__call__` on an already-dict `response`: a missing
`"content"` key would raise out of the generator (`Except.error`); a
decomposition failure yields no message and invokes nothing. -/
def executorCall (toolRun : PrimOp → ToolOut) (offX offY : Int) (response : PyDict) :
    Except String ExecOutcome := do
  let actions ← match pyGet response "content" with
    | some v => Except.ok v
    | Option.none => Except.error "KeyError: content"
  match parseActorOutput actions with
  | some actionList =>
      if actionList.isEmpty then
        pure ⟨[], []⟩
      else
        pure (actionList.foldl
          (fun acc a =>
            let r := execStep toolRun offX offY a
            ⟨acc.messages ++ r.1, acc.invoked ++ r.2⟩)
          (⟨[], []⟩ : ExecOutcome))
  | Option.none => pure ⟨[], []⟩

/-- `is_scaling` as passed by `AlohaExecutor.__init__` when it
constructs its `ComputerTool` (aloha_executor.py line 29). -/
def alohaToolIsScaling : Bool := false

/-- `coords_are_global` as passed by `AlohaExecutor.__init__`
(aloha_executor.py line 29): the tool must not re-apply offsets. -/
def alohaToolCoordsAreGlobal : Bool := true

/-- A concrete device-executor oracle standing in for
`ToolCollection.run`, used to instantiate closed statements. -/
def dummyToolRun : PrimOp → ToolOut :=
  fun _ => .result (some "ok") "action" "click"

/-- `ComputerTool._scale_and_offset` (tools/computer.py lines 248-255),
parameterized by the constructor flags, the screen offset, and the
`scale_coordinates(API, ...)` function it defers to when scaling is
enabled. -/
def scaleAndOffset (isScaling coordsAreGlobal : Bool)
    (scaleApi : Int × Int → Int × Int) (offX offY : Int)
    (coordinate : Int × Int) : Int × Int :=
  let xy := if isScaling then scaleApi coordinate else coordinate
  if coordsAreGlobal then xy else (xy.1 + offX, xy.2 + offY)

/-- `ComputerTool._offset_or_cursor` for a supplied coordinate
(tools/computer.py lines 257-262). -/
def offsetOrCursor (coordsAreGlobal : Bool) (offX offY : Int)
    (coordinate : Int × Int) : Int × Int :=
  if coordsAreGlobal then coordinate else (coordinate.1 + offX, coordinate.2 + offY)

/-!
## Screen Geometry Resolver
(`AlohaExecutor._get_selected_screen_offset`, `GUICapture._monitor_region`)
-/

/-- One enumerated display (screeninfo monitor / Quartz display bounds). -/
structure MonitorInfo where
  x : Int
  y : Int
  width : Int
  height : Int
  isPrimary : Bool
deriving Repr, DecidableEq

/-- The key ordering of `sorted(screens, key=lambda s: s.x)`. -/
def byX (a b : MonitorInfo) : Prop :=
  a.x ≤ b.x

instance : DecidableRel byX := fun a b => inferInstanceAs (Decidable (a.x ≤ b.x))

instance : IsTotal MonitorInfo byX := ⟨fun a b => le_total a.x b.x⟩

instance : IsTrans MonitorInfo byX := ⟨fun _ _ _ h h2 => le_trans h h2⟩

/-- `sorted(screens, key=lambda s: s.x)`: Python's `sorted` is a stable
sort by the key; insertion sort with `byX` is extensionally the same. -/
def sortByX (screens : List MonitorInfo) : List MonitorInfo :=
  screens.insertionSort byX

/-- The Windows strategy of `_get_selected_screen_offset` (lines
335-341): sort by x-origin, bounds-check the index, return the selected
display's origin. -/
def offsetWindows (screens : List MonitorInfo) (selected : Int) :
    Except String (Int × Int) :=
  let sortedScreens := sortByX screens
  if selected < 0 ∨ selected ≥ screens.length then
    .error "Invalid screen index."
  else
    match sortedScreens.get? selected.toNat with
    | some s => .ok (s.x, s.y)
    | Option.none => .error "Invalid screen index."

/-- The macOS strategy (lines 343-364): identical sort / bounds-check /
index over the Quartz-enumerated displays. -/
def offsetDarwin (screens : List MonitorInfo) (selected : Int) :
    Except String (Int × Int) :=
  let sortedScreens := sortByX screens
  if selected < 0 ∨ selected ≥ screens.length then
    .error "Invalid screen index."
  else
    match sortedScreens.get? selected.toNat with
    | some s => .ok (s.x, s.y)
    | Option.none => .error "Invalid screen index."

/-- The Linux/other strategy (lines 366-371): an `xrandr` probe whose
output and failure are both discarded, then `(0, 0)` unconditionally —
the selected index is never consulted. -/
def offsetLinux (_selected : Int) : Except String (Int × Int) :=
  .ok (0, 0)

/-- `GUICapture._monitor_region` (gui_capture.py lines 19-34),
parameterized by the primary-display size `pyautogui.size()`: empty
enumeration falls back to the primary bounds, the index is clamped with
`max(0, min(idx, len-1))`, and a negative origin falls back to the
primary bounds. -/
def monitorRegion (screens : List MonitorInfo) (primaryW primaryH : Int)
    (selected : Int) : Int × Int × Int × Int :=
  let sortedScreens := sortByX screens
  if sortedScreens.isEmpty then
    (0, 0, primaryW, primaryH)
  else
    let idx : Int := max 0 (min selected ((sortedScreens.length : Int) - 1))
    match sortedScreens.get? idx.toNat with
    | some m =>
        if m.x < 0 ∨ m.y < 0 then
          (0, 0, primaryW, primaryH)
        else
          (m.x, m.y, m.width, m.height)
    | Option.none => (0, 0, primaryW, primaryH)

/-!
## OAI Operator normalizer
(`act/gui_agent/actor/agents/oai_operator_agent.py`)
-/

/-- The upstream `keys` attribute of a keypress computer-call: either a
list/tuple of tokens or a raw string. -/
inductive OaiKeys where
  | strs (ks : List String)
  | raw (s : String)
deriving Repr

/-- One OpenAI computer-call action object, with `getattr` defaults
modelled by `Option` (`none` = attribute absent). `path` holds the
already-extracted `[p.x, p.y]` points of a drag gesture. -/
structure OaiAction where
  type_ : Option String := Option.none
  button : Option String := Option.none
  x : Option Int := Option.none
  y : Option Int := Option.none
  keys : OaiKeys := .raw ""
  scrollX : Option Int := Option.none
  scrollY : Option Int := Option.none
  text : Option String := Option.none
  path : List (Int × Int) := []
deriving Repr

/-- One item of `response.output`. -/
inductive OaiRespItem where
  | computerCall (action : OaiAction)
  | outputText (text : String)
  | reasoning
  | other
deriving Repr

/-- Whether a response item is a `computer_call`. -/
def isOaiComputerCall : OaiRespItem → Bool
  | .computerCall _ => true
  | _ => false

/-- Keys of `OAIOperatorAgent.action_type_convert`. -/
def oaiActionTypeConvertKeys : List String :=
  ["click", "double_click", "move", "scroll", "wait", "type", "drag",
   "keypress", "screenshot"]

/-- The `modifiers` set of the keypress classifier. -/
def oaiModifiers : List String :=
  ["ctrl", "control", "shift", "alt", "meta", "cmd", "command", "win", "super"]

/-- The `specials` set — written `{}` in the source, i.e. empty. -/
def oaiSpecials : List String := []

/-- `str.isprintable()` for a single character, on the ASCII range the
agents emit (space is printable, controls are not). -/
def pyPrintableChar (c : Char) : Bool :=
  0x20 ≤ c.toNat && c.toNat ≤ 0x7e

/-- `is_printable_char`: `len(tok) == 1 and tok.isprintable()`. -/
def isPrintableTok (t : String) : Bool :=
  t.length == 1 && t.data.all pyPrintableChar

/-- Token normalization of the keypress branch: list inputs are
stripped and empties dropped; string inputs split on `+` when a `+` is
present, else form a single stripped token. -/
def oaiKeypressTokens : OaiKeys → List String
  | .strs ks => (ks.map String.trim).filter (fun t => t ≠ "")
  | .raw r =>
      if r.contains '+' then (r.splitOn "+").map String.trim else [r.trim]

/-- The keypress classification branch of
`OAIOperatorAgent._parse_response` (lines 165-221): pure typing merges
into one INPUT, a lone `space` becomes INPUT `" "`, anything else
becomes a `KEY` chord of lowercased tokens joined by `+`
(`action_type_convert["keypress"] = "KEY"`). -/
def oaiKeypress (keys : OaiKeys) : PyDict :=
  let tokens := oaiKeypressTokens keys
  let lowerTokens := tokens.map String.toLower
  let hasModifierOrSpecial :=
    lowerTokens.any (fun t => oaiModifiers.contains t || oaiSpecials.contains t)
  let allPrintableChars := tokens.all isPrintableTok
  if !tokens.isEmpty && !hasModifierOrSpecial && allPrintableChars then
    [("action", .str "INPUT"), ("value", .str (String.join tokens)),
     ("position", .str "")]
  else if tokens.length == 1 && lowerTokens.headD "" == "space" then
    [("action", .str "INPUT"), ("value", .str " "), ("position", .str "")]
  else
    [("action", .str "KEY"),
     ("value", .str (String.intercalate "+" (tokens.map String.toLower))),
     ("position", .str "")]

/-- Loop state of `_parse_response`: the accumulating `action_json`,
the `computer_call_found` flag, and the last `output_text` seen. -/
structure OaiParseState where
  actionJson : PyDict
  found : Bool
  lastText : Option String
deriving Repr

/-- One iteration of the `_parse_response` loop.  A recognized
computer-call overwrites `action_json`; an unrecognized action type
(absent from the map, or `screenshot`, which the map lists but no branch
handles) only logs and leaves `action_json` untouched; a drag with no
points raises `IndexError`. -/
def oaiStep (st : OaiParseState) (item : OaiRespItem) :
    Except String OaiParseState :=
  match item with
  | .reasoning => .ok st
  | .other => .ok st
  | .outputText t => .ok { st with lastText := some t }
  | .computerCall a =>
      let st := { st with found := true }
      match a.type_ with
      | Option.none => .ok st
      | some ty =>
          if ty ∈ oaiActionTypeConvertKeys then
            if ty = "click" ∨ ty = "move" ∨ ty = "double_click" then
              let x := a.x.getD 0
              let y := a.y.getD 0
              let actionName :=
                if ty = "click" then
                  if (a.button.getD "left").toLower = "right" then "RIGHT_CLICK"
                  else "CLICK"
                else if ty = "double_click" then "DOUBLE_CLICK"
                else "MOVE"
              .ok { st with actionJson :=
                [("action", .str actionName), ("value", .str ""),
                 ("position", .list [.int x, .int y])] }
            else if ty = "keypress" then
              .ok { st with actionJson := oaiKeypress a.keys }
            else if ty = "scroll" then
              let sx := a.scrollX.getD 0
              let sy := a.scrollY.getD 0
              let direction := if sy > 0 then "down" else "up"
              let x := a.x.getD 0
              let y := a.y.getD 0
              .ok { st with actionJson :=
                [("action", .str "SCROLL"), ("direction", .str direction),
                 ("position", .list [.int x, .int y]),
                 ("value", .list [.int sx, .int sy])] }
            else if ty = "wait" then
              .ok { st with actionJson :=
                [("action", .str "WAIT"), ("value", .str ""), ("position", .str "")] }
            else if ty = "type" then
              .ok { st with actionJson :=
                [("action", .str "INPUT"), ("value", .str (a.text.getD "")),
                 ("position", .str "")] }
            else if ty = "drag" then
              let points :=
                if a.path.isEmpty ∧ a.x.isSome ∧ a.y.isSome then
                  [(a.x.getD 0, a.y.getD 0)]
                else a.path
              match hpts : points with
              | [] => .error "IndexError: list index out of range"
              | p :: _ =>
                  let q := points.getLast (by simp [hpts])
                  .ok { st with actionJson :=
                    [("action", .str "DRAG"),
                     ("start", .list [.int p.1, .int p.2]),
                     ("end", .list [.int q.1, .int q.2])] }
            else .ok st
          else .ok st

/-- `OAIOperatorAgent._parse_response`: fold the loop, then fall back to
the `ERROR` record when no computer-call was present, with `value` the
last non-empty `output_text` if any. -/
def oaiParseResponse (items : List OaiRespItem) : Except String PyDict := do
  let st ← items.foldlM oaiStep ⟨[], false, Option.none⟩
  if st.found then
    pure st.actionJson
  else
    let defaultMsg := "No computer_call found in output. Re-run the planning."
    let v := match st.lastText with
      | some t => if t ≠ "" then t else defaultMsg
      | Option.none => defaultMsg
    pure [("action", .str "ERROR"), ("value", .str v),
          ("position", .list [.int 0, .int 0])]

/-- Python `d.get("action") == "STOP"` on a normalizer output. -/
def actionTagIs (d : PyDict) (tag : String) : Bool :=
  match pyGet d "action" with
  | some (.str s) => s == tag
  | _ => false

/-- The parse/return tail of `OAIOperatorAgent.execute`: any exception
escaping `_parse_response` is caught and becomes the `ERROR` action with
the exception text, `complete = False`. -/
def oaiExecuteResult (items : List OaiRespItem) : PyDict × Bool :=
  match oaiParseResponse items with
  | .ok d => (d, actionTagIs d "STOP")
  | .error e =>
      ([("action", .str "ERROR"), ("value", .str e),
        ("position", .list [.int 0, .int 0])], false)

/-!
## UI-TARS normalizer (`convert_ui_tars_action_to_json`)

The four regular expressions of the converter are embedded as
deterministic character-list matchers; each alternative of the regexes
is anchored and mutually non-overlapping, so deterministic consumption
is equivalent to the anchored regex match.
-/

/-- Consume an exact literal prefix. -/
def pLit : List Char → List Char → Option (List Char)
  | [], cs => some cs
  | l :: ls, c :: cs => if c = l then pLit ls cs else Option.none
  | _ :: _, [] => Option.none

/-- Consume one or more decimal digits (`\d+`). -/
def pDigits1 (cs : List Char) : Option (List Char × List Char) :=
  let ds := cs.takeWhile Char.isDigit
  if ds.isEmpty then Option.none else some (ds, cs.dropWhile Char.isDigit)

/-- Consume whitespace (`\s*`). -/
def pSpaces (cs : List Char) : List Char :=
  cs.dropWhile Char.isWhitespace

/-- Numeric value of a digit run. -/
def digitsToNat (ds : List Char) : ℕ :=
  ds.foldl (fun a c => a * 10 + (c.toNat - 48)) 0

/-- `^click\(start_box='\(?(\d+),\s*(\d+)\)?'\)$`. -/
def matchClick (s : String) : Option (Int × Int) := do
  let cs ← pLit "click(start_box='".data s.data
  let cs := match cs with | '(' :: rest => rest | _ => cs
  let (ds1, cs) ← pDigits1 cs
  let cs ← pLit [','] cs
  let cs := pSpaces cs
  let (ds2, cs) ← pDigits1 cs
  let cs := match cs with | ')' :: rest => rest | _ => cs
  let cs ← pLit "')".data cs
  if cs.isEmpty then some ((digitsToNat ds1 : Int), (digitsToNat ds2 : Int))
  else Option.none

/-- `^hotkey\(key='([^']+)'\)$`. -/
def matchHotkey (s : String) : Option String := do
  let cs ← pLit "hotkey(key='".data s.data
  let key := cs.takeWhile (fun c => c ≠ '\'')
  if key.isEmpty then Option.none else
  let cs := cs.dropWhile (fun c => c ≠ '\'')
  let cs ← pLit "')".data cs
  if cs.isEmpty then some (String.mk key) else Option.none

/-- `^type\(content='([^']*)'\)$`. -/
def matchTypeContent (s : String) : Option String := do
  let cs ← pLit "type(content='".data s.data
  let content := cs.takeWhile (fun c => c ≠ '\'')
  let cs := cs.dropWhile (fun c => c ≠ '\'')
  let cs ← pLit "')".data cs
  if cs.isEmpty then some (String.mk content) else Option.none

/-- `^scroll\(start_box='[^']*'\s*,\s*direction='(down|up|left|right)'\)$`. -/
def matchScroll (s : String) : Option String := do
  let cs ← pLit "scroll(start_box='".data s.data
  let cs := cs.dropWhile (fun c => c ≠ '\'')
  let cs ← pLit ['\''] cs
  let cs := pSpaces cs
  let cs ← pLit [','] cs
  let cs := pSpaces cs
  let cs ← pLit "direction='".data cs
  let tryDir (d : String) : Option String := do
    let cs ← pLit d.data cs
    let cs ← pLit "')".data cs
    if cs.isEmpty then some d else Option.none
  (tryDir "down").orElse fun _ =>
  (tryDir "up").orElse fun _ =>
  (tryDir "left").orElse fun _ =>
  tryDir "right"

/-- `ACTION_MAP` of the converter. -/
def uiTarsActionMap : List (String × String) :=
  [("click", "CLICK"), ("type", "INPUT"), ("scroll", "SCROLL"),
   ("wait", "STOP"), ("finished", "STOP"), ("call_user", "STOP"),
   ("hotkey", "HOTKEY")]

/-- The preamble of `convert_ui_tars_action_to_json`: strip whitespace
and a leading `Action:` prefix. -/
def uiTarsStrip (actionStr : String) : String :=
  let s := actionStr.trim
  if s.startsWith "Action:" then (s.drop 7).trim else s

/-- `convert_ui_tars_action_to_json` (ui_tars_agent.py lines 62-153),
with the final `json.dumps`/`json.loads` round trip collapsed to the
dictionary itself.  Order of attempts and the fall-through to `"STOP"`
follow the source exactly. -/
def uiTarsConvert (actionStr : String) : PyDict :=
  let s := uiTarsStrip actionStr
  match matchClick s with
  | some (x, y) =>
      [("action", .str "CLICK"), ("value", PyVal.none),
       ("position", .list [.int x, .int y])]
  | Option.none =>
  match matchHotkey s with
  | some key0 =>
      let key := key0.toLower
      if key = "enter" then
        [("action", .str "ENTER"), ("value", PyVal.none), ("position", PyVal.none)]
      else if key = "esc" then
        [("action", .str "ESC"), ("value", PyVal.none), ("position", PyVal.none)]
      else
        [("action", .str "HOTKEY"), ("value", .str key), ("position", PyVal.none)]
  | Option.none =>
  match matchTypeContent s with
  | some content =>
      [("action", .str "INPUT"), ("value", .str content), ("position", PyVal.none)]
  | Option.none =>
  match matchScroll s with
  | some dir =>
      [("action", .str "SCROLL"), ("value", .str dir), ("position", PyVal.none)]
  | Option.none =>
  if s = "wait()" ∨ s = "finished()" ∨ s = "call_user()" then
    let base := s.replace "()" ""
    let tag := ((uiTarsActionMap.find? (fun kv => kv.1 == base)).map (·.2)).getD "STOP"
    [("action", .str tag), ("value", PyVal.none), ("position", PyVal.none)]
  else
    [("action", .str "STOP"), ("value", PyVal.none), ("position", PyVal.none)]

/-!
## Claude computer-use normalizer
(`act/gui_agent/actor/agents/claude_computer_use_agent.py`)
-/

/-- One block of `response.content`. -/
inductive ClaudeItem where
  | textBlock (t : String)
  | toolUse (input : PyDict)
deriving Repr

/-- The x-axis rescale of `_parse_response` line 138:
`int(coord[0] / 1024 * 1920)` — `DISPLAY_WIDTH = 1024` from `__init__`,
target width hardcoded to `1920`.  Modelled in exact rational
arithmetic (the quotient by the power-of-two width is float-exact). -/
def claudeScaleX (v : ℚ) : Int :=
  pyTruncQ (v / 1024 * 1920)

/-- The y-axis rescale of line 139: `int(coord[1] / 768 * 1080)` —
`DISPLAY_HEIGHT = 768`, target height hardcoded to `1080`. -/
def claudeScaleY (v : ℚ) : Int :=
  pyTruncQ (v / 768 * 1080)

/-- Modelled from the spec: the coordinate rescaling as §4.1 words it —
"rescale its reported coordinates into the real captured-screenshot
resolution via linear scaling per axis", i.e. `x · real_width/1024`,
`y · real_height/768` (same truncation).  Used only as the refinement
comparison target for the code's `claudeScaleX`/`claudeScaleY`. -/
def claudeScaleSpec (realW realH : Int) (x y : ℚ) : Int × Int :=
  (pyTruncQ (x / 1024 * (realW : ℚ)), pyTruncQ (y / 768 * (realH : ℚ)))

/-- One iteration of the `_parse_response` content loop (lines 123-151):
only a `left_click` tool-use block is parsed (`TODO: support more
actions`); its `coordinate` entry is indexed and rescaled — a missing
key, short list, or non-numeric entry raises. -/
def claudeStep (st : PyDict × Bool) (item : ClaudeItem) :
    Except String (PyDict × Bool) :=
  match item with
  | .textBlock _ => .ok st
  | .toolUse input =>
      let actionTypeOk :=
        match pyGetD input "action" (.str "") with
        | .str s => s == "left_click"
        | _ => false
      if actionTypeOk then do
        let coord ← match pyGet input "coordinate" with
          | some v => Except.ok v
          | Option.none => Except.error "KeyError: coordinate"
        let (c0, c1) ← match coord with
          | .list (a :: b :: _) => Except.ok (a, b)
          | .tuple (a :: b :: _) => Except.ok (a, b)
          | _ => Except.error "IndexError: list index out of range"
        let q0 ← pyFloat c0
        let q1 ← pyFloat c1
        let x := claudeScaleX q0
        let y := claudeScaleY q1
        .ok ([("action", .str "CLICK"), ("value", .str ""),
              ("position", .list [.int x, .int y])], true)
      else
        .ok st

/-- `ClaudeComputerUseAgent._parse_response`: fold the content blocks;
without a recognized action the `ERROR` record is returned. -/
def claudeParseResponse (items : List ClaudeItem) : Except String PyDict := do
  let (d, found) ← items.foldlM claudeStep ([], false)
  if found then pure d
  else pure [("action", .str "ERROR"),
             ("value", .str "No valid computer action found"),
             ("position", .list [.int 0, .int 0])]

/-!
## Client run/stop state machine (`app_client.py`)
-/

/-- The mutable fields of `SharedState` that the two routes read or
write. -/
structure ClientState where
  task : PyVal
  selectedScreen : PyVal
  traceId : PyVal
  serverUrl : PyVal
  maxSteps : PyVal
  isProcessing : Bool
  shouldStop : Bool
  stopEvent : Bool
deriving Repr

/-- An HTTP route reply `(status, message, http_code)`. -/
structure HttpResp where
  status : String
  message : String
  code : ℕ
deriving Repr, DecidableEq

/-- The `/run_task` route (app_client.py lines 82-106): reject a request
missing `task` (400), reject while a task is processing (409) before
touching any state, otherwise update the runtime parameters, clear the
stop event and start the worker — whose first statements
(`process_input` lines 42-44) set `is_processing` and clear the stop
flags. -/
def runTaskRoute (st : ClientState) (data : PyDict) : HttpResp × ClientState :=
  if !(pyContains data "task") then
    (⟨"error", "Missing required field(s): task", 400⟩, st)
  else if st.isProcessing then
    (⟨"error", "A task is already running", 409⟩, st)
  else
    let st := { st with
      task := pyGetD data "task" st.task,
      selectedScreen := pyGetD data "selected_screen" st.selectedScreen,
      traceId := pyGetD data "trace_id" st.traceId,
      serverUrl := pyGetD data "server_url" st.serverUrl,
      maxSteps := pyGetD data "max_steps" st.maxSteps,
      stopEvent := false }
    let st := { st with isProcessing := true, shouldStop := false, stopEvent := false }
    (⟨"success", "Task started", 200⟩, st)

/-- The `/stop` route (lines 109-118): reject while idle (400) with no
state change, otherwise set both stop signals. -/
def stopRoute (st : ClientState) : HttpResp × ClientState :=
  if !st.isProcessing then
    (⟨"error", "No active task to stop", 400⟩, st)
  else
    (⟨"success", "Stop signal sent", 200⟩,
     { st with shouldStop := true, stopEvent := true })

/-!
## Theorems

Helper lemmas first, then one theorem (plus witness or counterexample)
per claim of the specification review.
-/

theorem pyTruncQ_intCast (n : Int) : pyTruncQ (n : ℚ) = n := by
  simp only [pyTruncQ, Rat.num_intCast, Rat.den_intCast, Nat.cast_one]
  cases n <;> simp [Int.tdiv, Int.negSucc_eq]

theorem pyGet_cons_ne (k k2 : String) (v : PyVal) (d : PyDict) (h : (k2 == k) = false) :
    pyGet ((k2, v) :: d) k = pyGet d k := by
  simp [pyGet, List.find?, h]

theorem pyGet_cons_eq (k : String) (v : PyVal) (d : PyDict) :
    pyGet ((k, v) :: d) k = some v := by
  simp [pyGet, List.find?]

/-- C3: amended.  The `ms` field of a WAIT action takes priority over
`seconds` exactly when `ms/1000` is nonzero: for every nonzero `ms` the
single emitted wait operation carries `str(ms/1000)` (float rendering),
whatever `seconds` says; scenario `{"action":"WAIT","ms":2000}`
decomposes to `[wait("2.0")]`, also in the presence of a `seconds`
field.  (For `ms = 0` the falsy float falls through to `seconds` — see
the counterexample.) -/
theorem wait_ms_priority (item : PyDict) (ms : Int)
    (h1 : pyGetD item "ms" (.int 5000) = .int ms) (h2 : ms ≠ 0) :
    parseWait item = .ok [⟨"wait", .str (pyFloatStr ((ms : ℚ) / 1000)), PyVal.none⟩] ∧
    parseActorOutputD [("action", .str "WAIT"), ("ms", .int 2000)] =
      .ok [⟨"wait", .str "2.0", PyVal.none⟩] ∧
    parseActorOutputD [("action", .str "WAIT"), ("ms", .int 2000), ("seconds", .int 9)] =
      .ok [⟨"wait", .str "2.0", PyVal.none⟩] := by
  refine ⟨?_, by with_unfolding_all rfl, by with_unfolding_all rfl⟩
  have hq : ((ms : ℚ) / 1000) ≠ 0 := by
    simp only [ne_eq, div_eq_zero_iff, OfNat.ofNat_ne_zero, or_false, Rat.intCast_eq_zero]
    exact h2
  simp [parseWait, h1, pyDivBy1000, pyTruthy, pyStr, hq]

/-- C3 witness: `ms = 2500` exercises the priority path. -/
theorem wait_ms_priority_witness :
    pyGetD [("ms", PyVal.int 2500)] "ms" (.int 5000) = PyVal.int 2500 ∧
    (2500 : Int) ≠ 0 ∧
    parseWait [("ms", PyVal.int 2500)] =
      .ok [⟨"wait", .str (pyFloatStr ((2500 : ℚ) / 1000)), PyVal.none⟩] :=
  ⟨by with_unfolding_all rfl, by decide,
   (wait_ms_priority [("ms", PyVal.int 2500)] 2500 (by with_unfolding_all rfl) (by decide)).1⟩

/-- C3 counterexample: the claim asserts the `ms` priority "for every
value of `ms`, including 0", i.e. `{"action":"WAIT","ms":0}` would give
`[wait("0.0")]` — but `0.0` is falsy, so the code falls through to the
`seconds` default and emits `[wait("5")]`. -/
theorem wait_ms_zero_uses_seconds_default :
    parseActorOutputD [("action", PyVal.str "WAIT"), ("ms", PyVal.int 0)] =
      .ok [⟨"wait", PyVal.str "5", PyVal.none⟩] ∧ ("5" : String) ≠ "0.0" :=
  ⟨by with_unfolding_all rfl, by decide⟩

/-- C5: confirmed.  Scroll decomposition: a scalar value `n` scrolls by
`-n` (positive input = scroll down, device positive = up); a 2-element
value uses only the vertical component; value `120` maps to text
`"-120"`; and scenario `{"action":"SCROLL","value":[0,300],
"position":[960,540]}` decomposes to a `mouse_move` to the position
followed by `scroll("-300")`. -/
theorem scroll_decomposition (vx vy n : Int) :
    parseScroll [("value", PyVal.int n)] =
      .ok [⟨"scroll", .str (toString (-n)), PyVal.none⟩] ∧
    parseScroll [("value", PyVal.list [.int vx, .int vy])] =
      .ok [⟨"scroll", .str (toString (-vy)), PyVal.none⟩] ∧
    parseScroll [("value", PyVal.int 120)] =
      .ok [⟨"scroll", .str "-120", PyVal.none⟩] ∧
    parseActorOutputD [("action", .str "SCROLL"), ("value", .list [.int 0, .int 300]),
        ("position", .list [.int 960, .int 540])] =
      .ok [⟨"mouse_move", PyVal.none, .tuple [.int 960, .int 540]⟩,
           ⟨"scroll", .str "-300", .tuple [.int 960, .int 540]⟩] := by
  refine ⟨?_, ?_, by with_unfolding_all rfl, by with_unfolding_all rfl⟩ <;>
    simp [parseScroll, pyGetD, pyGet, pyFloat, pyInt, pyTruncQ_intCast, pyContains,
          isPyNone, List.find?, Bind.bind, Except.bind, Pure.pure, Except.pure]

/-- C9: confirmed.  At most one run per owning process: a `/run_task`
request while `is_processing` is set is answered with an error status
and leaves the state untouched (this covers both the 400
missing-field and the 409 already-running reply), and a `/stop` request
while idle is answered with the 400 error and leaves the state
untouched. -/
theorem single_run_guard (st st2 : ClientState) (data : PyDict)
    (h1 : st.isProcessing = true) (h2 : st2.isProcessing = false) :
    (runTaskRoute st data).1.status = "error" ∧
    (runTaskRoute st data).2 = st ∧
    (stopRoute st2).1 = ⟨"error", "No active task to stop", 400⟩ ∧
    (stopRoute st2).2 = st2 := by
  by_cases hc : pyContains data "task" <;>
    simp [runTaskRoute, stopRoute, h1, h2, hc]

/-- C9 witness: a concrete busy state rejects a start, a concrete idle
state rejects a stop. -/
theorem single_run_guard_witness :
    ({ task := .str "t", selectedScreen := .int 0, traceId := .str "tr",
       serverUrl := .str "u", maxSteps := .int 50, isProcessing := true,
       shouldStop := false, stopEvent := false } : ClientState).isProcessing = true ∧
    (runTaskRoute
       { task := .str "t", selectedScreen := .int 0, traceId := .str "tr",
         serverUrl := .str "u", maxSteps := .int 50, isProcessing := true,
         shouldStop := false, stopEvent := false } [("task", .str "x")]).1.status = "error" ∧
    (stopRoute
       { task := .str "t", selectedScreen := .int 0, traceId := .str "tr",
         serverUrl := .str "u", maxSteps := .int 50, isProcessing := false,
         shouldStop := false, stopEvent := false }).1 =
      ⟨"error", "No active task to stop", 400⟩ :=
  have h := single_run_guard
    { task := .str "t", selectedScreen := .int 0, traceId := .str "tr",
      serverUrl := .str "u", maxSteps := .int 50, isProcessing := true,
      shouldStop := false, stopEvent := false }
    { task := .str "t", selectedScreen := .int 0, traceId := .str "tr",
      serverUrl := .str "u", maxSteps := .int 50, isProcessing := false,
      shouldStop := false, stopEvent := false }
    [("task", .str "x")] rfl rfl
  ⟨rfl, h.1, h.2.2.1⟩

/-- C10: confirmed.  The per-screen offset is applied exactly once: the
`__call__` conversion adds `(offset_x, offset_y)` to a 2-element
integer-convertible coordinate (leaving action and text untouched), the
tool — constructed with `is_scaling=False`, `coords_are_global=True` —
passes the resulting coordinate through `_scale_and_offset` and
`_offset_or_cursor` unchanged, and a coordinate whose first entry is
not integer-convertible leaves the operation dispatched unmodified. -/
theorem offset_applied_exactly_once (ox oy x y tox toy : Int) (a b : PrimOp)
    (cx cy dx dy : PyVal) (scaleApi : Int × Int → Int × Int)
    (ha : a.coordinate = .list [cx, cy] ∨ a.coordinate = .tuple [cx, cy])
    (hx : pyInt cx = .ok x) (hy : pyInt cy = .ok y)
    (hb : b.coordinate = .list [dx, dy] ∨ b.coordinate = .tuple [dx, dy])
    (hdx : (pyInt dx).isOk = false) :
    (offsetApply ox oy a).coordinate = .tuple [.int (x + ox), .int (y + oy)] ∧
    (offsetApply ox oy a).action = a.action ∧
    (offsetApply ox oy a).text = a.text ∧
    scaleAndOffset alohaToolIsScaling alohaToolCoordsAreGlobal scaleApi tox toy
      (x + ox, y + oy) = (x + ox, y + oy) ∧
    offsetOrCursor alohaToolCoordsAreGlobal tox toy (x + ox, y + oy) = (x + ox, y + oy) ∧
    offsetApply ox oy b = b := by
  refine ⟨?_, ?_, ?_, by simp [scaleAndOffset, alohaToolIsScaling, alohaToolCoordsAreGlobal],
         by simp [offsetOrCursor, alohaToolCoordsAreGlobal], ?_⟩ <;>
  · cases ha <;> cases hb <;>
      cases hpd : pyInt dx <;>
      simp_all [offsetApply, hx, hy, Except.isOk, Except.toBool]

/-- C10 witness: offset `(10, 20)` on a mouse-move to `(3, 4)`; a
string coordinate `("a", "b")` is left unmodified. -/
theorem offset_applied_exactly_once_witness :
    (⟨"mouse_move", PyVal.none, .tuple [.int 3, .int 4]⟩ : PrimOp).coordinate =
        .tuple [.int 3, .int 4] ∧
    pyInt (.int 3) = .ok 3 ∧
    (offsetApply 10 20 ⟨"mouse_move", PyVal.none, .tuple [.int 3, .int 4]⟩).coordinate =
      .tuple [.int 13, .int 24] ∧
    offsetApply 10 20 ⟨"mouse_move", PyVal.none, .list [.str "a", .str "b"]⟩ =
      ⟨"mouse_move", PyVal.none, .list [.str "a", .str "b"]⟩ :=
  have h := offset_applied_exactly_once 10 20 3 4 0 0
    ⟨"mouse_move", PyVal.none, .tuple [.int 3, .int 4]⟩
    ⟨"mouse_move", PyVal.none, .list [.str "a", .str "b"]⟩
    (.int 3) (.int 4) (.str "a") (.str "b") id
    (Or.inr rfl) rfl rfl (Or.inl rfl) (by with_unfolding_all rfl)
  ⟨rfl, rfl, by simpa using h.1, h.2.2.2.2.2⟩

/-- C1: amended.  For any action dictionary whose uppercased tag is
outside `supported_actions`, decomposition fails with the diagnosable
`"Action ... not supported"` error, which the `except` handler converts
to `None`; `__call__` then yields *no* message at all — in particular no
error-typed result — and invokes the device tool zero times, so the
caller's loop simply proceeds. -/
theorem unsupported_action_tag_silently_skipped
    (toolRun : PrimOp → ToolOut) (ox oy : Int) (item : PyDict)
    (h : (pyStr (pyGetD item "action" (.str ""))).toUpper ∉ supportedActions) :
    parseActorOutputD item =
      .error ("Action " ++ (pyStr (pyGetD item "action" (.str ""))).toUpper ++
              " not supported") ∧
    parseActorOutput (.dict item) = Option.none ∧
    executorCall toolRun ox oy [("role", .str "assistant"), ("content", .dict item)] =
      .ok ⟨[], []⟩ := by
  have h1 : parseActorOutputD item =
      .error ("Action " ++ (pyStr (pyGetD item "action" (.str ""))).toUpper ++
              " not supported") := by
    simp [parseActorOutputD, h, throw, throwThe, MonadExceptOf.throw]
  have h2 : parseActorOutput (.dict item) = Option.none := by
    simp [parseActorOutput, parseActorOutputVal, h1, Except.toOption]
  refine ⟨h1, h2, ?_⟩
  simp [executorCall, pyGet, List.find?, h2, Bind.bind, Except.bind, Pure.pure, Except.pure]

/-- C1 witness: the unsupported tag `FLY`. -/
theorem unsupported_action_tag_silently_skipped_witness :
    (pyStr (pyGetD [("action", PyVal.str "FLY")] "action" (.str ""))).toUpper ∉
        supportedActions ∧
    executorCall dummyToolRun 7 9
      [("role", .str "assistant"), ("content", .dict [("action", PyVal.str "FLY")])] =
      .ok ⟨[], []⟩ :=
  have hm : (pyStr (pyGetD [("action", PyVal.str "FLY")] "action" (.str ""))).toUpper ∉
      supportedActions :=
    of_decide_eq_false (by with_unfolding_all rfl)
  ⟨hm, (unsupported_action_tag_silently_skipped dummyToolRun 7 9
          [("action", PyVal.str "FLY")] hm).2.2⟩

/-- C1 counterexample: the claim says the decomposition failure for the
unknown tag `TELEPORT` is "surfaced as an error-typed result"; in fact
`__call__` yields the empty message stream (the error is only logged),
so no error-typed result exists. -/
theorem teleport_yields_no_result_message :
    executorCall dummyToolRun 0 0
      [("role", .str "assistant"),
       ("content", .dict [("action", PyVal.str "TELEPORT")])] = .ok ⟨[], []⟩ ∧
    (⟨[], []⟩ : ExecOutcome).messages.filter (fun m => m.type_ == "error") = [] :=
  ⟨by with_unfolding_all rfl, rfl⟩

/-- C7: amended.  The Claude computer-use normalizer rescales each
reported left-click coordinate linearly per axis out of its fixed
1024×768 virtual display, but into a hardcoded 1920×1080 target — i.e.
it coincides with the spec's "real captured-screenshot resolution"
formula exactly when that resolution is 1920×1080. -/
theorem claude_scales_to_fixed_1920x1080 (x y : Int) :
    claudeParseResponse
      [.toolUse [("action", .str "left_click"),
                 ("coordinate", .list [.int x, .int y])]] =
      .ok [("action", .str "CLICK"), ("value", .str ""),
           ("position",
            .list [.int (claudeScaleSpec 1920 1080 (x : ℚ) (y : ℚ)).1,
                   .int (claudeScaleSpec 1920 1080 (x : ℚ) (y : ℚ)).2])] := by
  have hx : ((1920 : Int) : ℚ) = (1920 : ℚ) := by norm_num
  have hy : ((1080 : Int) : ℚ) = (1080 : ℚ) := by norm_num
  simp [claudeParseResponse, claudeStep, claudeScaleSpec, claudeScaleX, claudeScaleY,
        pyGet, pyGetD, List.find?, pyFloat, hx, hy,
        Bind.bind, Except.bind, Pure.pure, Except.pure]

/-- C7 counterexample: the claim's formula depends on the real
screenshot resolution; the code's does not.  For an 800×600 screenshot
the spec formula sends the virtual centre `(512, 384)` to `(400, 300)`,
but the parser emits `(960, 540)` regardless. -/
theorem claude_scaling_ignores_real_resolution :
    claudeParseResponse
      [.toolUse [("action", .str "left_click"),
                 ("coordinate", .list [.int 512, .int 384])]] =
      .ok [("action", .str "CLICK"), ("value", .str ""),
           ("position", .list [.int 960, .int 540])] ∧
    claudeScaleSpec 800 600 512 384 = (400, 300) ∧
    ¬((960 : Int) = 400 ∧ (540 : Int) = 300) :=
  ⟨by with_unfolding_all rfl, by with_unfolding_all rfl, by decide⟩

/-- C4: amended.  OAI keypress classification: a nonempty token list
with no modifier tokens, all single printable characters, merges into
one INPUT by concatenation; a lone `space` token maps to INPUT `" "`;
and any token list containing a modifier normalizes to a chord action
whose value is the lowercased tokens joined by `+` — but the chord tag
is `KEY` (the tag `action_type_convert` assigns to `keypress`), not
`HOTKEY`; the decomposer dispatches KEY and HOTKEY identically. -/
theorem oai_keypress_classification (ks km : OaiKeys)
    (h1 : oaiKeypressTokens ks ≠ [])
    (h2 : ∀ t ∈ oaiKeypressTokens ks, oaiModifiers.contains t.toLower = false)
    (h3 : ∀ t ∈ oaiKeypressTokens ks, isPrintableTok t = true)
    (h4 : ∃ t ∈ oaiKeypressTokens km, oaiModifiers.contains t.toLower = true) :
    oaiKeypress ks = [("action", .str "INPUT"),
      ("value", .str (String.join (oaiKeypressTokens ks))), ("position", .str "")] ∧
    oaiKeypress km = [("action", .str "KEY"),
      ("value", .str (String.intercalate "+" ((oaiKeypressTokens km).map String.toLower))),
      ("position", .str "")] ∧
    oaiKeypress (.strs ["space"]) =
      [("action", .str "INPUT"), ("value", .str " "), ("position", .str "")] ∧
    oaiKeypress (.strs ["a"]) =
      [("action", .str "INPUT"), ("value", .str "a"), ("position", .str "")] ∧
    oaiKeypress (.strs ["ctrl", "s"]) =
      [("action", .str "KEY"), ("value", .str "ctrl+s"), ("position", .str "")] ∧
    oaiKeypress (.strs ["A", "shift"]) =
      [("action", .str "KEY"), ("value", .str "a+shift"), ("position", .str "")] := by
  refine ⟨?_, ?_, by with_unfolding_all rfl, by with_unfolding_all rfl,
          by with_unfolding_all rfl, by with_unfolding_all rfl⟩
  · have h2a : ∀ t ∈ oaiKeypressTokens ks, t.toLower ∉ oaiModifiers :=
      fun t ht => by simpa using h2 t ht
    simp [oaiKeypress, h1, h3, oaiSpecials, h2a]
    intro himp
    obtain ⟨x, hx, hpx⟩ := himp h2a
    simp [h3 x hx] at hpx
  · obtain ⟨t, ht, hc⟩ := h4
    have hc2 : t.toLower ∈ oaiModifiers := by simpa using hc
    have hfail : ¬ ∀ x ∈ oaiKeypressTokens km,
        x.toLower ∉ oaiModifiers ∧ x.toLower ∉ oaiSpecials := by
      intro hall2
      exact (hall2 t ht).1 hc2
    have hone : ¬(((oaiKeypressTokens km).length = 1) ∧
        ((Option.map String.toLower (oaiKeypressTokens km).head?).getD "" = "space")) := by
      rintro ⟨hlen, hsp⟩
      obtain ⟨a, ha⟩ := List.length_eq_one.mp hlen
      rw [ha] at ht hsp
      have hta : t = a := by simpa using ht
      subst hta
      simp at hsp
      rw [hsp] at hc2
      exact absurd hc2 (by decide)
    simp [oaiKeypress, hfail, hone]

/-- C4 witness: typing tokens `["a","b"]` merge to INPUT; the chord
`["ctrl","s"]` becomes KEY `"ctrl+s"`. -/
theorem oai_keypress_classification_witness :
    oaiKeypressTokens (.strs ["a", "b"]) ≠ [] ∧
    oaiKeypress (.strs ["a", "b"]) = [("action", .str "INPUT"),
      ("value", .str (String.join (oaiKeypressTokens (.strs ["a", "b"])))),
      ("position", .str "")] ∧
    oaiKeypress (.strs ["ctrl", "s"]) = [("action", .str "KEY"),
      ("value", .str (String.intercalate "+"
        ((oaiKeypressTokens (.strs ["ctrl", "s"])).map String.toLower))),
      ("position", .str "")] :=
  have h := oai_keypress_classification (.strs ["a", "b"]) (.strs ["ctrl", "s"])
    (of_decide_eq_true (by with_unfolding_all rfl))
    (of_decide_eq_true (by with_unfolding_all rfl))
    (of_decide_eq_true (by with_unfolding_all rfl))
    (of_decide_eq_true (by with_unfolding_all rfl))
  ⟨of_decide_eq_true (by with_unfolding_all rfl), h.1, h.2.1⟩

/-- C4 counterexample: the chord `["ctrl","s"]` is normalized with tag
`KEY`, not `HOTKEY` as the claim states. -/
theorem oai_chord_tag_is_key_not_hotkey :
    oaiKeypress (.strs ["ctrl", "s"]) =
      [("action", .str "KEY"), ("value", .str "ctrl+s"), ("position", .str "")] ∧
    actionTagIs (oaiKeypress (.strs ["ctrl", "s"])) "HOTKEY" = false ∧
    actionTagIs (oaiKeypress (.strs ["ctrl", "s"])) "KEY" = true :=
  ⟨by with_unfolding_all rfl, by with_unfolding_all rfl, by with_unfolding_all rfl⟩

theorem oai_fold_no_call (items : List OaiRespItem) (st : OaiParseState)
    (h : ∀ i ∈ items, isOaiComputerCall i = false) :
    ∃ st2, List.foldlM oaiStep st items = .ok st2 ∧
      st2.found = st.found ∧ st2.actionJson = st.actionJson := by
  induction items generalizing st with
  | nil => exact ⟨st, rfl, rfl, rfl⟩
  | cons i rest ih =>
    have hi := h i (List.mem_cons_self i rest)
    have hrest : ∀ j ∈ rest, isOaiComputerCall j = false :=
      fun j hj => h j (List.mem_cons_of_mem i hj)
    cases i with
    | computerCall a => simp [isOaiComputerCall] at hi
    | outputText t =>
        obtain ⟨st2, he, hfd, ha⟩ := ih { st with lastText := some t } hrest
        exact ⟨st2, by simpa [List.foldlM_cons, oaiStep, Bind.bind, Except.bind] using he,
               by simpa using hfd, by simpa using ha⟩
    | reasoning =>
        obtain ⟨st2, he, hfd, ha⟩ := ih st hrest
        exact ⟨st2, by simpa [List.foldlM_cons, oaiStep, Bind.bind, Except.bind] using he,
               hfd, ha⟩
    | other =>
        obtain ⟨st2, he, hfd, ha⟩ := ih st hrest
        exact ⟨st2, by simpa [List.foldlM_cons, oaiStep, Bind.bind, Except.bind] using he,
               hfd, ha⟩

set_option maxHeartbeats 1000000 in
/-- C2: amended.  Fallback behavior of the normalizers: a UI-TARS
action line matching none of the recognized patterns converts to a
`STOP` record (not `ERROR`); the OAI parser yields the canonical
`{action:"ERROR", value:<diagnostic>, position:[0,0]}` record exactly
when the response contains no `computer_call` item; and a
`computer_call` whose action type is unrecognized (here `screenshot`,
which the conversion map lists but no branch handles) leaves the action
dictionary empty — no `action` key at all — rather than `ERROR`.
Exceptions are caught at each `execute` boundary, so nothing raises. -/
theorem normalizer_fallback_tags (s : String) (items : List OaiRespItem)
    (hc : matchClick (uiTarsStrip s) = Option.none)
    (hh : matchHotkey (uiTarsStrip s) = Option.none)
    (ht : matchTypeContent (uiTarsStrip s) = Option.none)
    (hs : matchScroll (uiTarsStrip s) = Option.none)
    (hw : uiTarsStrip s ≠ "wait()") (hf : uiTarsStrip s ≠ "finished()")
    (hcu : uiTarsStrip s ≠ "call_user()")
    (hnc : ∀ i ∈ items, isOaiComputerCall i = false) :
    uiTarsConvert s =
      [("action", .str "STOP"), ("value", PyVal.none), ("position", PyVal.none)] ∧
    actionTagIs (uiTarsConvert s) "ERROR" = false ∧
    (∃ d, oaiParseResponse items = .ok d ∧ actionTagIs d "ERROR" = true ∧
       pyGet d "position" = some (.list [.int 0, .int 0])) ∧
    oaiParseResponse [.computerCall { type_ := some "screenshot" }] = .ok [] ∧
    actionTagIs ([] : PyDict) "ERROR" = false := by
  have h1 : uiTarsConvert s =
      [("action", .str "STOP"), ("value", PyVal.none), ("position", PyVal.none)] := by
    delta uiTarsConvert
    simp only [hc, hh, ht, hs]
    rw [if_neg]
    simp [hw, hf, hcu]
  refine ⟨h1, by rw [h1]; with_unfolding_all rfl, ?_,
          by with_unfolding_all rfl, rfl⟩
  obtain ⟨st2, he, hfd, _⟩ := oai_fold_no_call items ⟨[], false, Option.none⟩ hnc
  have hfd2 : st2.found = false := by simpa using hfd
  refine ⟨[("action", .str "ERROR"),
           ("value", .str (match st2.lastText with
             | some t =>
                 if t ≠ "" then t
                 else "No computer_call found in output. Re-run the planning."
             | Option.none => "No computer_call found in output. Re-run the planning.")),
           ("position", .list [.int 0, .int 0])], ?_, ?_, ?_⟩
  · simp [oaiParseResponse, he, hfd2, Bind.bind, Except.bind, Pure.pure, Except.pure]
  · cases st2.lastText with
    | none => simp [actionTagIs, pyGet, List.find?]
    | some t => by_cases hts : t ≠ "" <;> simp [actionTagIs, pyGet, List.find?, hts]
  · cases st2.lastText with
    | none => simp [pyGet, List.find?]
    | some t => by_cases hts : t ≠ "" <;> simp [pyGet, List.find?, hts]

/-- C2 witness: the unmatched line `dance()` and a call-free response. -/
theorem normalizer_fallback_tags_witness :
    matchClick (uiTarsStrip "dance()") = Option.none ∧
    uiTarsConvert "dance()" =
      [("action", .str "STOP"), ("value", PyVal.none), ("position", PyVal.none)] ∧
    (∃ d, oaiParseResponse [.outputText "hello", .reasoning] = .ok d ∧
       actionTagIs d "ERROR" = true ∧
       pyGet d "position" = some (.list [.int 0, .int 0])) :=
  have h := normalizer_fallback_tags "dance()" [.outputText "hello", .reasoning]
    (by with_unfolding_all rfl) (by with_unfolding_all rfl)
    (by with_unfolding_all rfl) (by with_unfolding_all rfl)
    (of_decide_eq_true (by with_unfolding_all rfl))
    (of_decide_eq_true (by with_unfolding_all rfl))
    (of_decide_eq_true (by with_unfolding_all rfl))
    (of_decide_eq_true (by with_unfolding_all rfl))
  ⟨by with_unfolding_all rfl, h.1, h.2.2.1⟩

/-- C2 counterexample: the unrecognized action line `foobar()`
normalizes to `STOP`, not to the `ERROR` record the claim requires. -/
theorem uitars_unmatched_line_is_stop :
    uiTarsConvert "foobar()" =
      [("action", .str "STOP"), ("value", PyVal.none), ("position", PyVal.none)] ∧
    actionTagIs (uiTarsConvert "foobar()") "STOP" = true ∧
    actionTagIs (uiTarsConvert "foobar()") "ERROR" = false :=
  ⟨by with_unfolding_all rfl, by with_unfolding_all rfl, by with_unfolding_all rfl⟩

theorem sortByX_head_min (screens rest : List MonitorInfo) (m : MonitorInfo)
    (h : sortByX screens = m :: rest) :
    m ∈ screens ∧ ∀ m2 ∈ screens, m.x ≤ m2.x := by
  have hperm : List.Perm (List.insertionSort byX screens) screens :=
    List.perm_insertionSort byX screens
  constructor
  · exact hperm.mem_iff.mp (by simp [sortByX] at h; simp [h])
  · intro m2 hm2
    have hm2s : m2 ∈ sortByX screens := by
      simpa [sortByX] using hperm.mem_iff.mpr hm2
    rw [h] at hm2s
    rcases List.mem_cons.mp hm2s with heq | hm2r
    · exact le_of_eq (by rw [heq])
    · have hsorted : List.Sorted byX (sortByX screens) :=
        List.sorted_insertionSort byX screens
      rw [h] at hsorted
      exact (List.sorted_cons.mp hsorted).1 m2 hm2r

/-- C8: amended.  Display indexing: the Windows and macOS strategies of
`_get_selected_screen_offset` sort the enumerated displays by x-origin
and raise `Invalid screen index.` for any index outside `[0, N)`, and
index 0 resolves to a leftmost display's origin; the Linux/other
strategy, however, ignores the index entirely and returns `(0, 0)`, and
the capture layer's `_monitor_region` silently clamps an out-of-range
index into range instead of raising. -/
theorem screen_index_contract (screens : List MonitorInfo) (sel pw ph : Int)
    (hne : screens ≠ []) (hout : sel < 0 ∨ sel ≥ (screens.length : Int)) :
    offsetWindows screens sel = .error "Invalid screen index." ∧
    offsetDarwin screens sel = .error "Invalid screen index." ∧
    (∃ m ∈ screens, offsetWindows screens 0 = .ok (m.x, m.y) ∧
       offsetDarwin screens 0 = .ok (m.x, m.y) ∧ ∀ m2 ∈ screens, m.x ≤ m2.x) ∧
    offsetLinux sel = .ok (0, 0) ∧
    (∀ s2 : Int, s2 ≥ (screens.length : Int) →
       monitorRegion screens pw ph s2 =
         monitorRegion screens pw ph ((screens.length : Int) - 1)) ∧
    (∀ s2 : Int, s2 ≤ 0 →
       monitorRegion screens pw ph s2 = monitorRegion screens pw ph 0) := by
  have hlen : 0 < screens.length := List.length_pos.mpr hne
  refine ⟨by simp [offsetWindows, hout], by simp [offsetDarwin, hout], ?_, rfl, ?_, ?_⟩
  · cases hsort : sortByX screens with
    | nil =>
        have hl : (List.insertionSort byX screens).length = screens.length :=
          List.length_insertionSort byX screens
        rw [show List.insertionSort byX screens = sortByX screens from rfl, hsort] at hl
        simp at hl
        omega
    | cons m rest =>
        obtain ⟨hmem, hmin⟩ := sortByX_head_min screens rest m hsort
        have hnotout : ¬((0 : Int) < 0 ∨ (0 : Int) ≥ (screens.length : Int)) := by omega
        exact ⟨m, hmem, by simp [offsetWindows, hnotout, hsort, hne],
               by simp [offsetDarwin, hnotout, hsort, hne], hmin⟩
  · intro s2 hs2
    have hidx : max 0 (min s2 ((screens.length : Int) - 1)) =
        max 0 (min ((screens.length : Int) - 1) ((screens.length : Int) - 1)) := by
      omega
    simp only [monitorRegion, sortByX, List.length_insertionSort, hidx]
  · intro s2 hs2
    have hidx : max 0 (min s2 ((screens.length : Int) - 1)) =
        max 0 (min 0 ((screens.length : Int) - 1)) := by
      omega
    simp only [monitorRegion, sortByX, List.length_insertionSort, hidx]

/-- C8 witness: two displays, index 5 out of range. -/
theorem screen_index_contract_witness :
    ([⟨100, 5, 10, 10, false⟩, ⟨0, 7, 20, 20, true⟩] : List MonitorInfo) ≠ [] ∧
    offsetWindows [⟨100, 5, 10, 10, false⟩, ⟨0, 7, 20, 20, true⟩] 5 =
      .error "Invalid screen index." ∧
    (∃ m ∈ ([⟨100, 5, 10, 10, false⟩, ⟨0, 7, 20, 20, true⟩] : List MonitorInfo),
       offsetWindows [⟨100, 5, 10, 10, false⟩, ⟨0, 7, 20, 20, true⟩] 0 = .ok (m.x, m.y) ∧
       offsetDarwin [⟨100, 5, 10, 10, false⟩, ⟨0, 7, 20, 20, true⟩] 0 = .ok (m.x, m.y) ∧
       ∀ m2 ∈ ([⟨100, 5, 10, 10, false⟩, ⟨0, 7, 20, 20, true⟩] : List MonitorInfo),
         m.x ≤ m2.x) :=
  have h := screen_index_contract [⟨100, 5, 10, 10, false⟩, ⟨0, 7, 20, 20, true⟩] 5 800 600
    (by decide) (by decide)
  ⟨by decide, h.1, h.2.2.1⟩

/-- C8 counterexample: on the Linux strategy, index `-1` yields the
`(0,0)` offset with no error; in the capture layer, index 5 over a
2-display enumeration is clamped to the last display's region instead
of raising. -/
theorem screen_index_not_raised_linux_and_capture :
    offsetLinux (-1) = .ok (0, 0) ∧
    monitorRegion [⟨0, 0, 100, 100, true⟩, ⟨100, 0, 120, 80, false⟩] 800 600 5 =
      (100, 0, 120, 80) :=
  ⟨rfl, by with_unfolding_all rfl⟩

theorem find?_map_setkey (d : PyDict) (k k2 : String) (v : PyVal)
    (hne : (k == k2) = false) :
    List.find? (fun kv => kv.1 == k2)
      (d.map (fun kv => if kv.1 == k then (k, v) else kv)) =
    List.find? (fun kv => kv.1 == k2) d := by
  induction d with
  | nil => rfl
  | cons kv rest ih =>
      by_cases hk : (kv.1 == k) = true
      · have hkv : kv.1 = k := by simpa using hk
        have h1 : ((((k, v) : String × PyVal).1 == k2)) = false := by simp_all
        have h2 : ((kv.1 == k2)) = false := by simp_all
        simp only [List.map_cons, if_pos hk, List.find?_cons, h1, h2]
        exact ih
      · simp only [List.map_cons, if_neg hk, List.find?_cons]
        by_cases h2 : ((kv.1 == k2) = true)
        · simp only [h2]
        · simp only [Bool.not_eq_true] at h2
          simp only [h2]
          exact ih

theorem pyGet_pySet_ne (d : PyDict) (k k2 : String) (v : PyVal) (hne : (k == k2) = false) :
    pyGet (pySet d k v) k2 = pyGet d k2 := by
  unfold pySet
  by_cases hc : pyContains d k = true
  · simp only [hc, if_true, pyGet, find?_map_setkey d k k2 v hne]
  · simp only [Bool.not_eq_true] at hc
    simp only [hc, Bool.false_eq_true, if_false, pyGet, List.find?_append]
    have : List.find? (fun kv => kv.1 == k2) [(k, v)] = Option.none := by
      simp [List.find?, hne]
    simp [this]

theorem parseClick_length (d : PyDict) (ops : List PrimOp)
    (h : parseClick d = .ok ops) : ops.length = 2 := by
  cases hp : ensurePositionTuple d with
  | error e => simp [parseClick, hp, Bind.bind, Except.bind] at h
  | ok xy =>
      simp [parseClick, hp, Bind.bind, Except.bind, Pure.pure, Except.pure] at h
      simp [← h]

theorem parseRightClick_length (d : PyDict) (ops : List PrimOp)
    (h : parseRightClick d = .ok ops) : ops.length = 2 := by
  cases hp : ensurePositionTuple d with
  | error e => simp [parseRightClick, hp, Bind.bind, Except.bind] at h
  | ok xy =>
      simp [parseRightClick, hp, Bind.bind, Except.bind, Pure.pure, Except.pure] at h
      simp [← h]

theorem parseMove_length (d : PyDict) (ops : List PrimOp)
    (h : parseMove d = .ok ops) : ops.length = 1 := by
  cases hp : ensurePositionTuple d with
  | error e => simp [parseMove, hp, Bind.bind, Except.bind] at h
  | ok xy =>
      simp [parseMove, hp, Bind.bind, Except.bind, Pure.pure, Except.pure] at h
      simp [← h]

theorem parsePress_length (d : PyDict) (ops : List PrimOp)
    (h : parsePress d = .ok ops) : ops.length = 2 := by
  cases hp : ensurePositionTuple d with
  | error e => simp [parsePress, hp, Bind.bind, Except.bind] at h
  | ok xy =>
      simp [parsePress, hp, Bind.bind, Except.bind, Pure.pure, Except.pure] at h
      simp [← h]

theorem parseDoubleClick_length (d : PyDict) (ops : List PrimOp)
    (h : parseDoubleClick d = .ok ops) : ops.length = 2 := by
  cases hp : ensurePositionTuple d with
  | error e => simp [parseDoubleClick, hp, Bind.bind, Except.bind] at h
  | ok xy =>
      simp [parseDoubleClick, hp, Bind.bind, Except.bind, Pure.pure, Except.pure] at h
      simp [← h]

theorem parseTripleClick_length (d : PyDict) (ops : List PrimOp)
    (h : parseTripleClick d = .ok ops) : ops.length = 2 := by
  cases hp : ensurePositionTuple d with
  | error e => simp [parseTripleClick, hp, Bind.bind, Except.bind] at h
  | ok xy =>
      simp [parseTripleClick, hp, Bind.bind, Except.bind, Pure.pure, Except.pure] at h
      simp [← h]

theorem parseInput_length (d : PyDict) (ops : List PrimOp)
    (h : parseInput d = .ok ops) : ops.length = 1 := by
  by_cases h1 : pyContains d "text" = true
  · simp [parseInput, h1] at h
    simp [← h]
  · by_cases h2 : pyContains d "value" = true <;>
      simp [parseInput, h1, h2] at h
    simp [← h]

theorem parseEnter_length (d : PyDict) (ops : List PrimOp)
    (h : parseEnter d = .ok ops) : ops.length = 1 := by
  simp [parseEnter] at h
  simp [← h]

theorem parseEscape_length (d : PyDict) (ops : List PrimOp)
    (h : parseEscape d = .ok ops) : ops.length = 1 := by
  simp [parseEscape] at h
  simp [← h]

theorem parsePause_length (d : PyDict) (ops : List PrimOp)
    (h : parsePause d = .ok ops) : ops.length = 1 := by
  simp [parsePause] at h
  simp [← h]

theorem parseContinue_length (d : PyDict) (ops : List PrimOp)
    (h : parseContinue d = .ok ops) : ops.length = 1 := by
  simp [parseContinue] at h
  simp [← h]

theorem parseWait_length (d : PyDict) (ops : List PrimOp)
    (h : parseWait d = .ok ops) : ops.length = 1 := by
  cases hq : pyDivBy1000 (pyGetD d "ms" (.int 5000)) with
  | error e => simp [parseWait, hq, Bind.bind, Except.bind] at h
  | ok q =>
      simp [parseWait, hq, Bind.bind, Except.bind, Pure.pure, Except.pure] at h
      simp [← h]

theorem parseDrag_length (d : PyDict) (ops : List PrimOp)
    (h : parseDrag d = .ok ops) : ops.length = 2 := by
  unfold parseDrag at h
  simp only [Bind.bind, Except.bind, Pure.pure, Except.pure, Except.map, throw,
             throwThe, MonadExceptOf.throw] at h
  repeat' split at h
  all_goals simp at h
  all_goals (rw [← h]; simp)

theorem parseScroll_length (d : PyDict) (ops : List PrimOp)
    (h : parseScroll d = .ok ops) : ops.length = 1 ∨ ops.length = 2 := by
  unfold parseScroll at h
  simp only [Bind.bind, Except.bind, Pure.pure, Except.pure] at h
  repeat' split at h
  all_goals simp at h
  all_goals (rw [← h]; simp)

theorem parseKeyOrHotkey_length (d : PyDict) (ops : List PrimOp)
    (h : parseKeyOrHotkey d = .ok ops) :
    (∃ ks, pyGetD d "value" PyVal.none = .list ks ∧ ops.length = ks.length) ∨
    ops.length = 1 := by
  unfold parseKeyOrHotkey at h
  cases hv : pyGetD d "value" PyVal.none with
  | list ks =>
      rw [hv] at h
      simp at h
      exact Or.inl ⟨ks, rfl, by simp [← h]⟩
  | none => rw [hv] at h; simp at h; exact Or.inr (by simp [← h])
  | int n => rw [hv] at h; simp at h; exact Or.inr (by simp [← h])
  | float q => rw [hv] at h; simp at h; exact Or.inr (by simp [← h])
  | str s2 => rw [hv] at h; simp at h; exact Or.inr (by simp [← h])
  | tuple xs => rw [hv] at h; simp at h; exact Or.inr (by simp [← h])
  | dict es => rw [hv] at h; simp at h; exact Or.inr (by simp [← h])

/-- C6: amended.  Every canonical action accepted by the decomposer
yields an ordered sequence of 1 or 2 primitive operations — except
KEY/HOTKEY with a list-valued `value`, which yields exactly one `key`
operation per list entry (so 0 or more than 2 are possible). -/
theorem decomposition_length_bounds (item : PyDict) (ops : List PrimOp)
    (h : parseActorOutputD item = .ok ops) :
    (1 ≤ ops.length ∧ ops.length ≤ 2) ∨
    (((pyStr (pyGetD item "action" (.str ""))).toUpper = "KEY" ∨
      (pyStr (pyGetD item "action" (.str ""))).toUpper = "HOTKEY") ∧
     ∃ ks, pyGetD item "value" PyVal.none = .list ks ∧ ops.length = ks.length) := by
  simp only [parseActorOutputD] at h
  generalize htag : (pyStr (pyGetD item "action" (.str ""))).toUpper = tag at h ⊢
  by_cases hmem : tag ∈ supportedActions
  case neg =>
    rw [if_neg hmem] at h
    exact absurd h (by simp [throw, throwThe, MonadExceptOf.throw])
  rw [if_pos hmem] at h
  have hpgK : pyGetD (pySet item "action" (.str "KEY")) "value" PyVal.none =
      pyGetD item "value" PyVal.none := by
    unfold pyGetD
    rw [pyGet_pySet_ne item "action" "value" (.str "KEY") rfl]
  have hpgH : pyGetD (pySet item "action" (.str "HOTKEY")) "value" PyVal.none =
      pyGetD item "value" PyVal.none := by
    unfold pyGetD
    rw [pyGet_pySet_ne item "action" "value" (.str "HOTKEY") rfl]
  simp only [supportedActions, List.mem_cons, List.not_mem_nil, or_false] at hmem
  rcases hmem with rfl | rfl | rfl | rfl | rfl | rfl | rfl | rfl | rfl | rfl | rfl |
    rfl | rfl | rfl | rfl | rfl | rfl | rfl
  all_goals simp only [parsersGet] at h
  all_goals norm_num at h
  all_goals (
    first
    | (have hl := parseClick_length _ _ h; exact Or.inl (by omega))
    | (have hl := parseRightClick_length _ _ h; exact Or.inl (by omega))
    | (have hl := parseInput_length _ _ h; exact Or.inl (by omega))
    | (have hl := parseMove_length _ _ h; exact Or.inl (by omega))
    | (have hl := parseEnter_length _ _ h; exact Or.inl (by omega))
    | (have hl := parseEscape_length _ _ h; exact Or.inl (by omega))
    | (have hl := parsePress_length _ _ h; exact Or.inl (by omega))
    | (have hl := parseDrag_length _ _ h; exact Or.inl (by omega))
    | (rcases parseScroll_length _ _ h with h1 | h1 <;> exact Or.inl (by omega))
    | (have hl := parseDoubleClick_length _ _ h; exact Or.inl (by omega))
    | (have hl := parseTripleClick_length _ _ h; exact Or.inl (by omega))
    | (have hl := parseWait_length _ _ h; exact Or.inl (by omega))
    | (have hl := parsePause_length _ _ h; exact Or.inl (by omega))
    | (have hl := parseContinue_length _ _ h; exact Or.inl (by omega))
    | (rcases parseKeyOrHotkey_length _ _ h with ⟨ks, hv, hlen⟩ | h1
       · exact Or.inr ⟨by simp, ks, by rw [← hpgK]; exact hv, hlen⟩
       · exact Or.inl (by omega))
    | (rcases parseKeyOrHotkey_length _ _ h with ⟨ks, hv, hlen⟩ | h1
       · exact Or.inr ⟨by simp, ks, by rw [← hpgH]; exact hv, hlen⟩
       · exact Or.inl (by omega)))

/-- C6 witness: the CLICK scenario yields exactly two operations. -/
theorem decomposition_length_bounds_witness :
    parseActorOutputD [("action", PyVal.str "CLICK"), ("value", .str ""),
        ("position", PyVal.list [.int 100, .int 200])] =
      .ok [⟨"mouse_move", PyVal.none, .tuple [.int 100, .int 200]⟩,
           ⟨"left_click", PyVal.none, .tuple [.int 100, .int 200]⟩] ∧
    ((1 ≤ ([⟨"mouse_move", PyVal.none, .tuple [.int 100, .int 200]⟩,
            ⟨"left_click", PyVal.none, .tuple [.int 100, .int 200]⟩] : List PrimOp).length ∧
      ([⟨"mouse_move", PyVal.none, .tuple [.int 100, .int 200]⟩,
        ⟨"left_click", PyVal.none, .tuple [.int 100, .int 200]⟩] : List PrimOp).length ≤ 2) ∨
     (((pyStr (pyGetD [("action", PyVal.str "CLICK"), ("value", .str ""),
           ("position", PyVal.list [.int 100, .int 200])] "action" (.str ""))).toUpper = "KEY" ∨
       (pyStr (pyGetD [("action", PyVal.str "CLICK"), ("value", .str ""),
           ("position", PyVal.list [.int 100, .int 200])] "action" (.str ""))).toUpper = "HOTKEY") ∧
      ∃ ks, pyGetD [("action", PyVal.str "CLICK"), ("value", .str ""),
          ("position", PyVal.list [.int 100, .int 200])] "value" PyVal.none = .list ks ∧
        ([⟨"mouse_move", PyVal.none, .tuple [.int 100, .int 200]⟩,
          ⟨"left_click", PyVal.none, .tuple [.int 100, .int 200]⟩] : List PrimOp).length =
          ks.length)) :=
  have hp : parseActorOutputD [("action", PyVal.str "CLICK"), ("value", .str ""),
      ("position", PyVal.list [.int 100, .int 200])] =
      .ok [⟨"mouse_move", PyVal.none, .tuple [.int 100, .int 200]⟩,
           ⟨"left_click", PyVal.none, .tuple [.int 100, .int 200]⟩] := by
    with_unfolding_all rfl
  ⟨hp, decomposition_length_bounds _ _ hp⟩

/-- C6 counterexample: `KEY` with a 3-element value list decomposes to
three operations, outside the claim's 1-2 bound. -/
theorem key_list_breaks_length_bound :
    parseActorOutputD [("action", PyVal.str "KEY"),
        ("value", PyVal.list [.str "ctrl", .str "shift", .str "esc"])] =
      .ok [⟨"key", .str "ctrl", PyVal.none⟩, ⟨"key", .str "shift", PyVal.none⟩,
           ⟨"key", .str "esc", PyVal.none⟩] ∧
    ([⟨"key", .str "ctrl", PyVal.none⟩, ⟨"key", .str "shift", PyVal.none⟩,
      ⟨"key", .str "esc", PyVal.none⟩] : List PrimOp).length = 3 ∧
    ¬((3 : ℕ) ≤ 2) :=
  ⟨by with_unfolding_all rfl, rfl, by decide⟩
